import Mathlib

/-!
Shallow embedding of the imageboard application in `app.py`.

The relational rows (Board, Thread, Post) become structures, the database
becomes explicit lists of rows plus autoincrement counters, and each Flask
route handler becomes a pure function from the request data and the current
state to an outcome and the next state.  Timestamps are natural numbers; each
call of `datetime.utcnow()` in the handler consumes the next element of an
explicit `clock` list, in the textual order of the calls, so that two
adjacent clock reads are allowed to return different values, exactly as two
adjacent `utcnow()` calls may.  Randomness (`uuid.uuid4`) and the external
sanitizer `werkzeug.utils.secure_filename` are passed in as parameters.
Filename manipulation is done on the underlying character lists so that all
definitions evaluate by `decide`.
-/

namespace Imageboard

/-- Board row: `class Board` in app.py (id, unique name, title, description). -/
structure Board where
  id : Nat
  name : String
  title : String
  description : String
deriving DecidableEq

/-- Thread row: `class Thread` in app.py. -/
structure Thread where
  id : Nat
  board_id : Nat
  subject : String
  created_at : Nat
  bumped_at : Nat
  is_pinned : Bool
  is_locked : Bool
deriving DecidableEq

/-- Post row: `class Post` in app.py.  The reserved columns `image_width`,
`image_height` and `thumbnail` are never written by any handler and are
omitted. -/
structure Post where
  id : Nat
  thread_id : Nat
  name : String
  email : String
  subject : String
  comment : String
  filename : Option String
  original_filename : Option String
  file_size : Option Nat
  created_at : Nat
  post_number : Nat
deriving DecidableEq

/-- The relational state: the three tables plus the autoincrement counters
that hand out primary keys. -/
structure DB where
  boards : List Board
  threads : List Thread
  posts : List Post
  next_board_id : Nat
  next_thread_id : Nat
  next_post_id : Nat
deriving DecidableEq

/-- A file persisted in the upload directory `static/uploads`: stored name
and byte size. -/
structure StoredFile where
  name : String
  size : Nat
deriving DecidableEq

/-- An uploaded multipart file as the handler sees it: the client-supplied
filename and the byte size of the content. -/
structure UploadedFile where
  filename : String
  size : Nat
deriving DecidableEq

/-- The form fields of `POST /<board_name>/post`.  `none` models a field that
is absent from the form, `some ""` a field that is present but empty; this is
the distinction `request.form.get(key, default)` is sensitive to.  The
`thread_id` field is `none` when the field is absent or empty (both are falsy
in the `if not thread_id` test), and `some n` when it carries the id `n`. -/
structure PostForm where
  name : Option String
  email : Option String
  subject : Option String
  comment : Option String
  thread_id : Option Nat
  file : Option UploadedFile
deriving DecidableEq

/-- One `datetime.utcnow()` call: read the head of the clock list, return the
tail for the subsequent calls.  An exhausted clock reads 0. -/
def utcnow : List Nat → Nat × List Nat
  | [] => (0, [])
  | t :: ts => (t, ts)

/-- A clock whose successive readings never decrease. -/
def ClockMono (c : List Nat) : Prop := c.Chain' (· ≤ ·)

/-- Lowercase an ASCII letter: the effect of Python `str.lower` on the
extension characters that matter to the allow-list comparison. -/
def lowerChar (c : Char) : Char :=
  if c.isUpper then Char.ofNat (c.toNat + 32) else c

/-- The characters after the last dot of a name, or `none` when the name
contains no dot: `name.rsplit(".", 1)[1]` together with the `"." in name`
guard. -/
def afterLastDot : List Char → Option (List Char)
  | [] => none
  | c :: rest =>
    match afterLastDot rest with
    | some e => some e
    | none => if c = '.' then some rest else none

/-- The fixed extension allow-list of `allowed_file`. -/
def ALLOWED_EXTENSIONS : List (List Char) :=
  ["png".data, "jpg".data, "jpeg".data, "gif".data, "webp".data, "webm".data, "mp4".data]

/-- `allowed_file(filename)` in app.py: the name contains a dot and the
lowercased text after the last dot is in the allow-list. -/
def allowed_file (filename : String) : Bool :=
  match afterLastDot filename.data with
  | none => false
  | some ext => ALLOWED_EXTENSIONS.contains (ext.map lowerChar)

/-- `generate_filename(original_filename)` in app.py, with the random
`uuid4` fragment passed in as `uid`: new storage name
`uid ++ "." ++ lowercased extension`.  The function indexes
`rsplit(".", 1)[1]` unguarded, so a name without a dot raises in Python;
that case is `none` here. -/
def generate_filename (uid : String) (original_filename : String) : Option String :=
  (afterLastDot original_filename.data).map
    (fun ext => uid ++ "." ++ String.mk (ext.map lowerChar))

/-- `get_next_post_number` queries the posts of the thread ordered by
`post_number` descending and takes the first row; this helper returns that
row: a post of the list carrying a maximal `post_number`. -/
def last_post_by_number : List Post → Option Post
  | [] => none
  | p :: ps =>
    match last_post_by_number ps with
    | none => some p
    | some q => if p.post_number < q.post_number then some q else some p

/-- The posts of the given list that belong to thread `tid`, in table
order. -/
def postsOfList (l : List Post) (tid : Nat) : List Post :=
  l.filter (fun p => p.thread_id == tid)

/-- The posts of thread `tid`, in table order. -/
def postsOf (db : DB) (tid : Nat) : List Post :=
  postsOfList db.posts tid

/-- `get_next_post_number(thread_id)` in app.py: one past the highest
existing `post_number` of the thread, or 1 when the thread has no posts. -/
def get_next_post_number (db : DB) (thread_id : Nat) : Nat :=
  match last_post_by_number (postsOf db thread_id) with
  | none => 1
  | some last_post => last_post.post_number + 1

/-- `Board.query.filter_by(name=...).first()`. -/
def findBoard (db : DB) (bname : String) : Option Board :=
  db.boards.find? (fun b => b.name == bname)

/-- `Thread.query.get(thread_id)`: primary-key lookup. -/
def findThread (db : DB) (tid : Nat) : Option Thread :=
  db.threads.find? (fun t => t.id == tid)

/-- Outcome of the file-upload block of `create_post` (lines 121 to 132 of
app.py). -/
inductive FileOutcome where
  /-- The block finished: the attachment columns to store on the post and
  the upload directory after the block. -/
  | ok (filename : Option String) (original_filename : Option String)
      (file_size : Option Nat) (uploads : List StoredFile)
  /-- `generate_filename` raised (sanitized name without a dot): the request
  aborts with a server error before the file is saved. -/
  | crash
deriving DecidableEq

/-- The file-upload block of `create_post`: when a file is present with a
non-empty name and an allowed extension, sanitize the original name, pick a
storage name and save the bytes (`file.save`), recording the written size;
otherwise the file is ignored and every attachment column stays null. -/
def handle_file (uploads : List StoredFile) (file : Option UploadedFile)
    (uid : String) (secure_filename : String → String) : FileOutcome :=
  match file with
  | none => .ok none none none uploads
  | some f =>
    if !f.filename.isEmpty && allowed_file f.filename then
      let original_filename := secure_filename f.filename
      match generate_filename uid original_filename with
      | none => .crash
      | some stored =>
        .ok (some stored) (some original_filename) (some f.size)
          (uploads ++ [⟨stored, f.size⟩])
    else .ok none none none uploads

/-- The bump of the reply branch, `thread.bumped_at = datetime.utcnow()`:
as a row update, the thread whose id matches gets the new bump time. -/
def bumpThread (tid v : Nat) (x : Thread) : Thread :=
  if x.id == tid then { x with bumped_at := v } else x

/-- Outcome of `POST /<board_name>/post`. -/
inductive PostOutcome where
  /-- The board slug in the URL matches no board: 404 before anything runs. -/
  | boardNotFound
  /-- `Thread.query.get_or_404` failed for the submitted `thread_id`. -/
  | threadNotFound
  /-- Reply to a locked thread: flash and redirect to the thread. -/
  | locked (thread_id : Nat)
  /-- New thread with empty subject, empty comment and no stored file:
  flash and redirect to the board. -/
  | validationError
  /-- `generate_filename` raised: generic server error. -/
  | serverError
  /-- The post was committed: redirect to the thread. -/
  | success (thread_id : Nat)
deriving DecidableEq

/-- Result of one request: the outcome plus the database and upload
directory afterwards. -/
structure ReqResult where
  outcome : PostOutcome
  db : DB
  uploads : List StoredFile
deriving DecidableEq

/-- The `create_post` route handler (lines 111 to 176 of app.py), with the
random filename fragment `uid`, the sanitizer and the clock passed in
explicitly.  The file block runs before the thread branch, so a saved file
stays in `uploads` even when the branch then rejects the request. -/
def create_post (db : DB) (uploads : List StoredFile) (board_name : String)
    (form : PostForm) (uid : String) (secure_filename : String → String)
    (clock : List Nat) : ReqResult :=
  match findBoard db board_name with
  | none => ⟨.boardNotFound, db, uploads⟩
  | some board =>
    let name := form.name.getD "Anonymous"
    let email := form.email.getD ""
    let subject := form.subject.getD ""
    let comment := form.comment.getD ""
    match handle_file uploads form.file uid secure_filename with
    | .crash => ⟨.serverError, db, uploads⟩
    | .ok filename original_filename file_size uploads1 =>
      match form.thread_id with
      | none =>
        if subject.isEmpty && comment.isEmpty && filename.isNone then
          ⟨.validationError, db, uploads1⟩
        else
          let r1 := utcnow clock
          let r2 := utcnow r1.2
          let tid := db.next_thread_id
          let thread : Thread :=
            { id := tid
              board_id := board.id
              subject := if subject.isEmpty then "No Subject" else subject
              created_at := r1.1
              bumped_at := r2.1
              is_pinned := false
              is_locked := false }
          let r3 := utcnow r2.2
          let post : Post :=
            { id := db.next_post_id
              thread_id := tid
              name := name
              email := email
              subject := subject
              comment := comment
              filename := filename
              original_filename := original_filename
              file_size := file_size
              created_at := r3.1
              post_number := 1 }
          ⟨.success tid,
            { db with
                threads := db.threads ++ [thread]
                posts := db.posts ++ [post]
                next_thread_id := tid + 1
                next_post_id := db.next_post_id + 1 },
            uploads1⟩
      | some tid =>
        match findThread db tid with
        | none => ⟨.threadNotFound, db, uploads1⟩
        | some thread =>
          if thread.is_locked then ⟨.locked tid, db, uploads1⟩
          else
            let pn := get_next_post_number db tid
            let r1 := utcnow clock
            let r2 := utcnow r1.2
            let post : Post :=
              { id := db.next_post_id
                thread_id := tid
                name := name
                email := email
                subject := subject
                comment := comment
                filename := filename
                original_filename := original_filename
                file_size := file_size
                created_at := r2.1
                post_number := pn }
            ⟨.success tid,
              { db with
                  threads := db.threads.map (bumpThread tid r1.1)
                  posts := db.posts ++ [post]
                  next_post_id := db.next_post_id + 1 },
              uploads1⟩

/-- The `ORDER BY is_pinned DESC, bumped_at DESC` comparison of the board
listing: `a` sorts at or before `b`. -/
def thread_le (a b : Thread) : Bool :=
  if a.is_pinned == b.is_pinned then decide (b.bumped_at ≤ a.bumped_at)
  else a.is_pinned

/-- Propositional form of `thread_le`. -/
def threadRel (a b : Thread) : Prop := thread_le a b = true

instance : DecidableRel threadRel :=
  fun a b => inferInstanceAs (Decidable (thread_le a b = true))

/-- The `board_view` route (lines 82 to 96 of app.py), restricted to the
thread listing: the threads of the board ordered by pin flag descending then
`bumped_at` descending, then the ten-per-page window of the requested page
(`error_out=False`: an out-of-range page yields the empty list). -/
def board_view (db : DB) (board_name : String) (page : Nat) : Option (List Thread) :=
  match findBoard db board_name with
  | none => none
  | some board =>
    let ordered := List.insertionSort threadRel
      (db.threads.filter (fun t => t.board_id == board.id))
    some ((ordered.drop ((page - 1) * 10)).take 10)

/-- Outcome of `POST /admin/create_board`. -/
inductive BoardOutcome where
  /-- `request.form[...]` raised `KeyError` on a missing field: 400. -/
  | badRequest
  /-- A board with the submitted name already exists: flash and redirect,
  nothing written. -/
  | conflict
  /-- The board was committed: redirect to the new board. -/
  | created (name : String)
deriving DecidableEq

/-- The `create_board` route handler (lines 178 to 195 of app.py) on a POST
request.  `name` and `title` are read with `request.form[key]`, which raises
on an absent field; `description` is read with a default. -/
def create_board (db : DB) (name : Option String) (title : Option String)
    (description : Option String) : BoardOutcome × DB :=
  match name with
  | none => (.badRequest, db)
  | some n =>
    match title with
    | none => (.badRequest, db)
    | some t =>
      let d := description.getD ""
      match findBoard db n with
      | some _ => (.conflict, db)
      | none =>
        (.created n,
          { db with
              boards := db.boards ++ [⟨db.next_board_id, n, t, d⟩]
              next_board_id := db.next_board_id + 1 })

/-- A present file is accepted by the upload block exactly when its name is
non-empty and `allowed_file` holds; an absent file is never accepted. -/
def FileAccepted (file : Option UploadedFile) : Bool :=
  match file with
  | none => false
  | some f => !f.filename.isEmpty && allowed_file f.filename
/-- The post numbers of a list of posts are, thread by thread, the dense
sequence 1..n in table order. -/
def NumbersSeqL (posts : List Post) : Prop :=
  ∀ tid, (postsOfList posts tid).map Post.post_number
    = List.range' 1 (postsOfList posts tid).length

/-- Database invariant: every thread has the dense post numbers 1..n. -/
def NumbersSeq (db : DB) : Prop := NumbersSeqL db.posts
/-- Key well-formedness: thread primary keys stay below the autoincrement
counter, and every post references an existing thread. -/
def WF (db : DB) : Prop :=
  (∀ t ∈ db.threads, t.id < db.next_thread_id) ∧
  (∀ p ∈ db.posts, ∃ t ∈ db.threads, t.id = p.thread_id)
/-- The ordering property the board listing promises: a thread never precedes
a pinned thread unless it is itself pinned, and inside a pin-status group the
earlier thread has the later (or equal) bump time. -/
def pin_recency_order (a b : Thread) : Prop :=
  (b.is_pinned = true → a.is_pinned = true) ∧
  (a.is_pinned = b.is_pinned → b.bumped_at ≤ a.bumped_at)

instance : DecidableRel pin_recency_order := fun a b => by
  unfold pin_recency_order
  infer_instance

/-- Concrete data for evaluating the route handlers: one seeded board. -/
def exBoard : Board := ⟨1, "b", "Random", "Random discussions"⟩

/-- A second board, for a request addressed to a different board. -/
def exBoardA : Board := ⟨2, "a", "Alternative", "Alt talk"⟩

/-- A pinned thread with an old bump time. -/
def exThreadPinned : Thread := ⟨1, 1, "pinned", 0, 5, true, false⟩

/-- An unpinned thread with the most recent bump time. -/
def exThreadHot : Thread := ⟨2, 1, "hot", 0, 50, false, false⟩

/-- An unpinned thread with an older bump time. -/
def exThreadCold : Thread := ⟨3, 1, "cold", 0, 7, false, false⟩

/-- A locked thread. -/
def exLockedThread : Thread := ⟨1, 1, "locked", 0, 0, false, true⟩

/-- An open thread on board 1. -/
def exOpenThread : Thread := ⟨1, 1, "open", 0, 0, false, false⟩

/-- The opening post of thread 1. -/
def exOpPost : Post := ⟨1, 1, "Anonymous", "", "", "op", none, none, none, 0, 1⟩

/-- One board, no threads, no posts. -/
def exDB : DB := ⟨[exBoard], [], [], 2, 1, 1⟩

/-- One board with three threads listed here against the expected order. -/
def exDBSorted : DB := ⟨[exBoard], [exThreadCold, exThreadHot, exThreadPinned], [], 2, 4, 1⟩

/-- One board with a locked thread holding one post. -/
def exDBLocked : DB := ⟨[exBoard], [exLockedThread], [exOpPost], 2, 2, 2⟩

/-- Two boards; the only thread lives on board 1, not on board 2. -/
def exDBTwoBoards : DB := ⟨[exBoard, exBoardA], [exOpenThread], [exOpPost], 3, 2, 2⟩

/-- A new-thread form whose name field is present but empty. -/
def exFormNewThread : PostForm := ⟨some "", some "", some "", some "hello", none, none⟩

/-- A reply form addressed to thread 1. -/
def exFormReply : PostForm := ⟨none, none, none, some "reply", some 1, none⟩

/-- A new-thread form with empty subject, empty comment and no file. -/
def exFormEmpty : PostForm := ⟨none, none, some "", some "", none, none⟩

/-- A new-thread form carrying a file with a disallowed extension. -/
def exFormExe : PostForm := ⟨none, none, none, some "look", none, some ⟨"virus.exe", 9⟩⟩

/-- A reply form to thread 1 carrying an allowed attachment. -/
def exFormPng : PostForm := ⟨none, none, none, some "pic", some 1, some ⟨"cat.PNG", 7⟩⟩

end Imageboard

namespace Imageboard


/-- When the file is absent or not accepted, the upload block is a no-op:
every attachment column is null and the upload directory is untouched. -/
theorem handle_file_not_accepted (uploads : List StoredFile)
    (file : Option UploadedFile) (uid : String) (sf : String → String)
    (h : FileAccepted file = false) :
    handle_file uploads file uid sf = .ok none none none uploads := by
  cases file with
  | none => rfl
  | some f =>
    simp only [FileAccepted] at h
    simp only [handle_file, h]
    simp



theorem last_post_by_number_eq_none (l : List Post) :
    last_post_by_number l = none ↔ l = [] := by
  cases l with
  | nil => simp [last_post_by_number]
  | cons a l =>
    simp only [last_post_by_number]
    constructor
    · intro h
      cases hl : last_post_by_number l <;> rw [hl] at h <;> simp at h
      split at h <;> simp at h
    · intro h; simp at h

theorem last_post_by_number_spec (l : List Post) (q : Post)
    (h : last_post_by_number l = some q) :
    q ∈ l ∧ ∀ p ∈ l, p.post_number ≤ q.post_number := by
  induction l generalizing q with
  | nil => simp [last_post_by_number] at h
  | cons a l ih =>
    rw [last_post_by_number] at h
    cases hl : last_post_by_number l with
    | none =>
      rw [hl] at h
      dsimp only at h
      have hnil : l = [] := (last_post_by_number_eq_none l).1 hl
      subst hnil
      simp at h
      subst h
      exact ⟨List.mem_singleton_self a, by intro p hp; simp at hp; subst hp; exact le_refl _⟩
    | some r =>
      rw [hl] at h
      dsimp only at h
      obtain ⟨hmem, hmax⟩ := ih r hl
      by_cases hlt : a.post_number < r.post_number
      · rw [if_pos hlt] at h
        injection h with h
        subst h
        refine ⟨List.mem_cons_of_mem a hmem, ?_⟩
        intro p hp
        rcases List.mem_cons.1 hp with hpa | hpl
        · subst hpa; exact Nat.le_of_lt hlt
        · exact hmax p hpl
      · rw [if_neg hlt] at h
        injection h with h
        subst h
        refine ⟨List.mem_cons_self a l, ?_⟩
        intro p hp
        rcases List.mem_cons.1 hp with hpa | hpl
        · subst hpa; exact le_refl _
        · exact le_trans (hmax p hpl) (Nat.le_of_not_lt hlt)

theorem get_next_post_number_eq_len (db : DB) (tid : Nat) (h : NumbersSeq db) :
    get_next_post_number db tid = (postsOf db tid).length + 1 := by
  have hseq := h tid
  unfold get_next_post_number postsOf
  cases hl : last_post_by_number (postsOfList db.posts tid) with
  | none =>
    have he : postsOfList db.posts tid = [] := (last_post_by_number_eq_none _).1 hl
    rw [he]
    rfl
  | some q =>
    obtain ⟨hmem, hmax⟩ := last_post_by_number_spec _ _ hl
    dsimp only
    have hk : q.post_number ∈ List.range' 1 (postsOfList db.posts tid).length := by
      rw [← hseq]
      exact List.mem_map_of_mem _ hmem
    have hub : q.post_number ≤ (postsOfList db.posts tid).length := by
      have := (List.mem_range'_1.1 hk).2
      omega
    have hkpos : 0 < (postsOfList db.posts tid).length := List.length_pos.2 (by
      intro hc
      rw [hc] at hmem
      simp at hmem)
    have hkmem : (postsOfList db.posts tid).length
        ∈ List.range' 1 (postsOfList db.posts tid).length :=
      List.mem_range'_1.2 ⟨hkpos, by omega⟩
    rw [← hseq] at hkmem
    obtain ⟨p, hp, hpk⟩ := List.mem_map.1 hkmem
    have hle := hmax p hp
    omega

theorem postsOfList_append (l m : List Post) (tid : Nat) :
    postsOfList (l ++ m) tid = postsOfList l tid ++ postsOfList m tid :=
  List.filter_append l m

theorem postsOfList_singleton_self (p : Post) :
    postsOfList [p] p.thread_id = [p] := by
  simp [postsOfList]

theorem postsOfList_singleton_ne (p : Post) (tid : Nat) (h : ¬p.thread_id = tid) :
    postsOfList [p] tid = [] := by
  simp [postsOfList, h]

theorem NumbersSeqL_append (l : List Post) (p : Post)
    (h : NumbersSeqL l)
    (hn : p.post_number = (postsOfList l p.thread_id).length + 1) :
    NumbersSeqL (l ++ [p]) := by
  intro tid
  rw [postsOfList_append]
  by_cases htid : p.thread_id = tid
  · subst htid
    rw [postsOfList_singleton_self]
    rw [List.map_append, h p.thread_id, List.length_append]
    simp only [List.map_cons, List.map_nil, List.length_singleton]
    rw [List.range'_concat]
    simp [hn, Nat.add_comm]
  · rw [postsOfList_singleton_ne p tid htid]
    simp [h tid]

theorem postsOf_fresh (db : DB) (hwf : WF db) :
    postsOf db db.next_thread_id = [] := by
  unfold postsOf postsOfList
  rw [List.filter_eq_nil_iff]
  intro p hp
  obtain ⟨t, ht, hid⟩ := hwf.2 p hp
  have hlt := hwf.1 t ht
  simp only [beq_iff_eq]
  omega



theorem bumpThread_id (tid v : Nat) (x : Thread) : (bumpThread tid v x).id = x.id := by
  unfold bumpThread
  split <;> rfl

theorem find?_map_bumpThread (l : List Thread) (tid v : Nat) (t : Thread)
    (h : l.find? (fun x => x.id == tid) = some t) :
    (l.map (bumpThread tid v)).find? (fun x => x.id == tid)
      = some { t with bumped_at := v } := by
  induction l with
  | nil => simp at h
  | cons a l ih =>
    by_cases ha : (a.id == tid) = true
    · rw [List.find?_cons_of_pos (p := fun x : Thread => x.id == tid) _ ha] at h
      injection h with h
      subst h
      rw [List.map_cons]
      have hfa : ((bumpThread tid v a).id == tid) = true := by rw [bumpThread_id]; exact ha
      rw [List.find?_cons_of_pos (p := fun x : Thread => x.id == tid) _ hfa]
      unfold bumpThread
      rw [if_pos ha]

    · rw [List.find?_cons_of_neg (p := fun x : Thread => x.id == tid) _ ha] at h
      rw [List.map_cons]
      have hfa : ¬((bumpThread tid v a).id == tid) = true := by rw [bumpThread_id]; exact ha
      rw [List.find?_cons_of_neg (p := fun x : Thread => x.id == tid) _ hfa]
      exact ih h

/-- Case analysis of the state after one `create_post` request: either the
database is untouched, or the new-thread branch appended one thread and its
first post, or the reply branch appended one post and bumped the target
thread. -/
theorem create_post_db_cases (db : DB) (uploads : List StoredFile)
    (bname : String) (form : PostForm) (uid : String) (sf : String → String)
    (clock : List Nat) :
    (create_post db uploads bname form uid sf clock).db = db ∨
    (∃ th p,
      th.id = db.next_thread_id ∧ p.thread_id = db.next_thread_id ∧
      p.post_number = 1 ∧
      (create_post db uploads bname form uid sf clock).db =
        { db with
            threads := db.threads ++ [th]
            posts := db.posts ++ [p]
            next_thread_id := db.next_thread_id + 1
            next_post_id := db.next_post_id + 1 }) ∨
    (∃ tid thr p v,
      findThread db tid = some thr ∧ p.thread_id = tid ∧
      p.post_number = get_next_post_number db tid ∧
      (create_post db uploads bname form uid sf clock).db =
        { db with
            threads := db.threads.map (bumpThread tid v)
            posts := db.posts ++ [p]
            next_post_id := db.next_post_id + 1 }) := by
  cases hfb : findBoard db bname with
  | none => left; simp [create_post, hfb]
  | some board =>
    cases hhf : handle_file uploads form.file uid sf with
    | crash => left; simp [create_post, hfb, hhf]
    | ok fn ofn fs ups1 =>
      cases htid : form.thread_id with
      | none =>
        by_cases hval : ((form.subject.getD "").isEmpty
            && (form.comment.getD "").isEmpty && fn.isNone) = true
        · left; simp [create_post, hfb, hhf, htid, hval]
        · right; left
          simp only [create_post, hfb, hhf, htid]
          rw [if_neg hval]
          exact ⟨_, _, rfl, rfl, rfl, rfl⟩
      | some tid =>
        cases hft : findThread db tid with
        | none => left; simp [create_post, hfb, hhf, htid, hft]
        | some thr =>
          by_cases hlk : thr.is_locked = true
          · left; simp [create_post, hfb, hhf, htid, hft, hlk]
          · right; right
            simp only [create_post, hfb, hhf, htid, hft]
            rw [if_neg hlk]
            exact ⟨tid, thr, _, (utcnow clock).1, hft, rfl, rfl, rfl⟩



theorem NumbersSeq_preserved (db : DB) (uploads : List StoredFile)
    (bname : String) (form : PostForm) (uid : String) (sf : String → String)
    (clock : List Nat) (hseq : NumbersSeq db) (hwf : WF db) :
    NumbersSeq (create_post db uploads bname form uid sf clock).db := by
  rcases create_post_db_cases db uploads bname form uid sf clock with
    heq | ⟨th, p, hth, hpt, hpn, heq⟩ | ⟨tid, thr, p, v, hft, hpt, hpn, heq⟩
  · rw [heq]; exact hseq
  · rw [heq]
    refine NumbersSeqL_append db.posts p hseq ?_
    rw [hpt, hpn]
    have hfresh := postsOf_fresh db hwf
    unfold postsOf at hfresh
    rw [hfresh]
    rfl
  · rw [heq]
    refine NumbersSeqL_append db.posts p hseq ?_
    rw [hpt, hpn]
    have := get_next_post_number_eq_len db tid hseq
    unfold postsOf at this
    exact this

theorem WF_preserved (db : DB) (uploads : List StoredFile)
    (bname : String) (form : PostForm) (uid : String) (sf : String → String)
    (clock : List Nat) (hwf : WF db) :
    WF (create_post db uploads bname form uid sf clock).db := by
  rcases create_post_db_cases db uploads bname form uid sf clock with
    heq | ⟨th, p, hth, hpt, hpn, heq⟩ | ⟨tid, thr, p, v, hft, hpt, hpn, heq⟩
  · rw [heq]; exact hwf
  · rw [heq]
    constructor
    · intro t ht
      rcases List.mem_append.1 ht with hold | hnew
      · have := hwf.1 t hold
        simp only
        omega
      · simp at hnew
        subst hnew
        simp only [hth]
        omega
    · intro q hq
      rcases List.mem_append.1 hq with hold | hnew
      · obtain ⟨t, ht, hid⟩ := hwf.2 q hold
        exact ⟨t, List.mem_append_left _ ht, hid⟩
      · simp at hnew
        subst hnew
        refine ⟨th, List.mem_append_right _ (List.mem_singleton_self th), ?_⟩
        rw [hth, hpt]
  · rw [heq]
    constructor
    · intro t ht
      simp only at ht ⊢
      rcases List.mem_map.1 ht with ⟨x, hx, hfx⟩
      rw [← hfx, bumpThread_id]
      exact hwf.1 x hx
    · intro q hq
      rcases List.mem_append.1 hq with hold | hnew
      · obtain ⟨t, ht, hid⟩ := hwf.2 q hold
        refine ⟨bumpThread tid v t, ?_, ?_⟩
        · exact List.mem_map_of_mem _ ht
        · rw [bumpThread_id]; exact hid
      · simp at hnew
        subst hnew
        refine ⟨bumpThread tid v thr, ?_, ?_⟩
        · exact List.mem_map_of_mem _ (List.mem_of_find?_eq_some hft)
        · rw [bumpThread_id, hpt]
          have := List.find?_some hft
          simpa using this

/-- Any successful `create_post` appends exactly one post row built from the
parsed form fields and the file block result, numbered 1 on the new-thread
branch and `get_next_post_number` on the reply branch. -/
theorem create_post_success_shape (db : DB) (uploads : List StoredFile)
    (bname : String) (form : PostForm) (uid : String)
    (sf : String → String) (clock : List Nat) (t : Nat)
    (h : (create_post db uploads bname form uid sf clock).outcome = .success t) :
    ∃ p : Post,
      (create_post db uploads bname form uid sf clock).db.posts = db.posts ++ [p] ∧
      p.thread_id = t ∧
      p.name = form.name.getD "Anonymous" ∧
      p.email = form.email.getD "" ∧
      p.subject = form.subject.getD "" ∧
      p.comment = form.comment.getD "" ∧
      ∃ fn ofn fs ups1,
        handle_file uploads form.file uid sf = .ok fn ofn fs ups1 ∧
        p.filename = fn ∧ p.original_filename = ofn ∧ p.file_size = fs ∧
        (create_post db uploads bname form uid sf clock).uploads = ups1 ∧
        ((form.thread_id = none ∧ t = db.next_thread_id ∧ p.post_number = 1) ∨
         (form.thread_id = some t ∧
           p.post_number = get_next_post_number db t)) := by
  cases hfb : findBoard db bname with
  | none => simp [create_post, hfb] at h
  | some board =>
    cases hhf : handle_file uploads form.file uid sf with
    | crash => simp [create_post, hfb, hhf] at h
    | ok fn ofn fs ups1 =>
      cases htid : form.thread_id with
      | none =>
        by_cases hval : ((form.subject.getD "").isEmpty
            && (form.comment.getD "").isEmpty && fn.isNone) = true
        · simp [create_post, hfb, hhf, htid, hval] at h
        · simp only [create_post, hfb, hhf, htid] at h ⊢
          rw [if_neg hval] at h ⊢
          simp only [PostOutcome.success.injEq] at h
          subst h
          refine ⟨_, rfl, rfl, rfl, rfl, rfl, rfl, fn, ofn, fs, ups1, rfl, rfl, rfl, rfl, rfl, ?_⟩
          exact Or.inl ⟨trivial, rfl, rfl⟩
      | some tid =>
        cases hft : findThread db tid with
        | none => simp [create_post, hfb, hhf, htid, hft] at h
        | some thr =>
          by_cases hlk : thr.is_locked = true
          · simp [create_post, hfb, hhf, htid, hft, hlk] at h
          · simp only [create_post, hfb, hhf, htid, hft] at h ⊢
            rw [if_neg hlk] at h ⊢
            simp only [PostOutcome.success.injEq] at h
            subst h
            refine ⟨_, rfl, rfl, rfl, rfl, rfl, rfl, fn, ofn, fs, ups1, rfl, rfl, rfl, rfl, rfl, ?_⟩
            exact Or.inr ⟨rfl, rfl⟩

end Imageboard

namespace Imageboard


theorem threadRel_total : ∀ a b : Thread, threadRel a b ∨ threadRel b a := by
  intro a b
  unfold threadRel thread_le
  cases ha : a.is_pinned <;> cases hb : b.is_pinned <;> simp <;> omega

theorem threadRel_trans :
    ∀ a b c : Thread, threadRel a b → threadRel b c → threadRel a c := by
  intro a b c
  unfold threadRel thread_le
  cases ha : a.is_pinned <;> cases hb : b.is_pinned <;> cases hc : c.is_pinned
    <;> simp <;> omega

theorem threadRel_imp_order (a b : Thread) (h : threadRel a b) :
    pin_recency_order a b := by
  unfold threadRel thread_le at h
  unfold pin_recency_order
  cases ha : a.is_pinned <;> cases hb : b.is_pinned <;> simp [ha, hb] at h ⊢
    <;> omega

end Imageboard

namespace Imageboard

/-- When the file block leaves the upload directory unchanged, so does the
whole request, whatever branch it then takes. -/
theorem create_post_uploads_stable (db : DB) (uploads : List StoredFile)
    (bname : String) (form : PostForm) (uid : String) (sf : String → String)
    (clock : List Nat) (fn ofn : Option String) (fs : Option Nat)
    (hok : handle_file uploads form.file uid sf = .ok fn ofn fs uploads) :
    (create_post db uploads bname form uid sf clock).uploads = uploads := by
  cases hfb : findBoard db bname with
  | none => simp [create_post, hfb]
  | some board =>
    simp only [create_post, hfb, hok]
    cases htid : form.thread_id with
    | none =>
      dsimp only
      split <;> rfl
    | some tid =>
      dsimp only
      cases hft : findThread db tid with
      | none => rfl
      | some thr => dsimp only; split <;> rfl

/-- C1: `get_next_post_number` returns one more than the maximum existing
`post_number` of the thread, or 1 when the thread has no posts; moreover,
starting from a database whose threads carry the dense numbers 1..n, any
successful `create_post` appends exactly one post whose number is the current
post count of its thread plus one (so the numbers assigned by successive
successful appends to one thread start at 1 and grow by exactly 1), and the
dense-numbering and well-formedness invariants are preserved. -/
theorem C1_post_numbering (db : DB) (uploads : List StoredFile)
    (bname : String) (form : PostForm) (uid : String) (sf : String → String)
    (clock : List Nat) (tid : Nat) (hseq : NumbersSeq db) (hwf : WF db) :
    (postsOf db tid = [] → get_next_post_number db tid = 1) ∧
    (postsOf db tid ≠ [] →
      ∃ p ∈ postsOf db tid,
        (∀ q ∈ postsOf db tid, q.post_number ≤ p.post_number) ∧
        get_next_post_number db tid = p.post_number + 1) ∧
    NumbersSeq (create_post db uploads bname form uid sf clock).db ∧
    WF (create_post db uploads bname form uid sf clock).db ∧
    (∀ t, (create_post db uploads bname form uid sf clock).outcome = .success t →
      ∃ p, (create_post db uploads bname form uid sf clock).db.posts
          = db.posts ++ [p] ∧
        p.thread_id = t ∧ p.post_number = (postsOf db t).length + 1) := by
  refine ⟨?_, ?_,
    NumbersSeq_preserved db uploads bname form uid sf clock hseq hwf,
    WF_preserved db uploads bname form uid sf clock hwf, ?_⟩
  · intro he
    unfold get_next_post_number
    rw [he]
    rfl
  · intro hne
    cases hl : last_post_by_number (postsOf db tid) with
    | none => exact absurd ((last_post_by_number_eq_none _).1 hl) hne
    | some q =>
      obtain ⟨hmem, hmax⟩ := last_post_by_number_spec _ _ hl
      refine ⟨q, hmem, hmax, ?_⟩
      unfold get_next_post_number
      rw [hl]
  · intro t hsucc
    obtain ⟨p, hp, hpt, _, _, _, _, fn, ofn, fs, ups1, hok, _, _, _, _, hdisj⟩ :=
      create_post_success_shape db uploads bname form uid sf clock t hsucc
    refine ⟨p, hp, hpt, ?_⟩
    rcases hdisj with ⟨_, hteq, hn1⟩ | ⟨_, hng⟩
    · subst hteq
      rw [postsOf_fresh db hwf]
      exact hn1
    · rw [hng]
      exact get_next_post_number_eq_len db t hseq

/-- C1 witness: the invariant hypotheses hold in the seeded one-board
database and are carried through a concrete thread-creating request. -/
theorem C1_post_numbering_witness :
    NumbersSeq exDB ∧ WF exDB ∧
    NumbersSeq (create_post exDB [] "b" exFormNewThread "u" id [0, 1, 2]).db := by
  have hseq : NumbersSeq exDB := fun tid => rfl
  have hwf : WF exDB :=
    ⟨fun t ht => absurd ht (List.not_mem_nil t),
     fun p hp => absurd hp (List.not_mem_nil p)⟩
  exact ⟨hseq, hwf,
    (C1_post_numbering exDB [] "b" exFormNewThread "u" id [0, 1, 2] 1 hseq hwf).2.2.1⟩

/-- C2: every page of the board listing is pairwise ordered by the promised
relation: a thread preceding a pinned thread is itself pinned, and inside a
pin-status group the earlier thread has the later or equal bump time. -/
theorem C2_listing_order (db : DB) (bname : String) (page : Nat) (b : Board)
    (items : List Thread)
    (hb : findBoard db bname = some b)
    (hv : board_view db bname page = some items) :
    items.Pairwise pin_recency_order := by
  unfold board_view at hv
  rw [hb] at hv
  dsimp only at hv
  injection hv with hv
  subst hv
  have hs : List.Sorted threadRel
      (List.insertionSort threadRel (db.threads.filter (fun t => t.board_id == b.id))) :=
    @List.sorted_insertionSort Thread threadRel _ ⟨threadRel_total⟩
      ⟨threadRel_trans⟩ (db.threads.filter (fun t => t.board_id == b.id))
  have hsub : (((List.insertionSort threadRel
        (db.threads.filter (fun t => t.board_id == b.id))).drop
          ((page - 1) * 10)).take 10).Sublist
      (List.insertionSort threadRel (db.threads.filter (fun t => t.board_id == b.id))) :=
    (List.take_sublist _ _).trans (List.drop_sublist _ _)
  exact (hs.sublist hsub).imp (fun h => threadRel_imp_order _ _ h)

/-- C2 witness: a board whose table holds a cold, a hot and a pinned thread
in reverse order lists them pinned first, then by bump time descending. -/
theorem C2_listing_order_witness :
    List.Pairwise pin_recency_order [exThreadPinned, exThreadHot, exThreadCold] :=
  C2_listing_order exDBSorted "b" 1 exBoard
    [exThreadPinned, exThreadHot, exThreadCold] rfl rfl

/-- C3: a reply to a locked thread ends in the Locked outcome and returns the
database exactly as it was: no post row is inserted (so the post count of the
thread is unchanged) and the bump time of the thread is not advanced. -/
theorem C3_locked_reply_no_state_change (db : DB) (uploads : List StoredFile)
    (bname : String) (form : PostForm) (uid : String) (sf : String → String)
    (clock : List Nat) (b : Board) (tid : Nat) (t : Thread)
    (fn ofn : Option String) (fs : Option Nat) (ups1 : List StoredFile)
    (hb : findBoard db bname = some b)
    (hok : handle_file uploads form.file uid sf = .ok fn ofn fs ups1)
    (htid : form.thread_id = some tid)
    (ht : findThread db tid = some t)
    (hlock : t.is_locked = true) :
    create_post db uploads bname form uid sf clock = ⟨.locked tid, db, ups1⟩ := by
  unfold create_post
  rw [hb, hok, htid]
  dsimp only
  rw [ht]
  dsimp only
  rw [hlock]
  simp

/-- C3 witness: a concrete reply to the locked thread is rejected with the
database untouched. -/
theorem C3_locked_reply_no_state_change_witness :
    create_post exDBLocked [] "b" exFormReply "u" id [9, 9]
      = ⟨.locked 1, exDBLocked, []⟩ :=
  C3_locked_reply_no_state_change exDBLocked [] "b" exFormReply "u" id [9, 9]
    exBoard 1 exLockedThread none none none [] rfl rfl rfl rfl rfl

/-- C4: a post without a thread id whose subject and comment parse to the
empty string and whose file was not accepted ends in the validation outcome,
and the database is returned exactly as it was: no Thread row and no Post row
are created. -/
theorem C4_empty_thread_rejected (db : DB) (uploads : List StoredFile)
    (bname : String) (form : PostForm) (uid : String) (sf : String → String)
    (clock : List Nat) (b : Board)
    (hb : findBoard db bname = some b)
    (hfile : FileAccepted form.file = false)
    (htid : form.thread_id = none)
    (hsub : form.subject.getD "" = "")
    (hcom : form.comment.getD "" = "") :
    create_post db uploads bname form uid sf clock
      = ⟨.validationError, db, uploads⟩ := by
  unfold create_post
  rw [hb, handle_file_not_accepted uploads form.file uid sf hfile, htid]
  dsimp only
  rw [hsub, hcom]
  rfl

/-- C4 witness: a concrete empty submission to the seeded board is rejected
with the database untouched. -/
theorem C4_empty_thread_rejected_witness :
    create_post exDB [] "b" exFormEmpty "u" id []
      = ⟨.validationError, exDB, []⟩ :=
  C4_empty_thread_rejected exDB [] "b" exFormEmpty "u" id [] exBoard
    rfl rfl rfl rfl rfl

end Imageboard

namespace Imageboard

/-- C5 counterexample: the handler reads the clock once for `created_at` and
again for `bumped_at`; on the monotone clock 0, 1, 2 the created thread has
`created_at` 0 and `bumped_at` 1, so the two fields are not equal. -/
theorem C5_counterexample :
    (create_post exDB [] "b" exFormNewThread "u" id [0, 1, 2]).db.threads.map
      (fun th => th.created_at == th.bumped_at) = [false] := by decide

/-- C5 (amended): at thread creation `bumped_at` is initialized from a clock
reading taken immediately after the one stored in `created_at`, so with a
monotone clock `created_at ≤ bumped_at`, with equality exactly when the two
readings coincide; the code does not reuse one reading for both fields. -/
theorem C5_bumped_at_init (db : DB) (uploads : List StoredFile)
    (bname : String) (form : PostForm) (uid : String) (sf : String → String)
    (t1 t2 : Nat) (rest : List Nat) (tid : Nat)
    (htid : form.thread_id = none)
    (hmono : ClockMono (t1 :: t2 :: rest))
    (hsucc : (create_post db uploads bname form uid sf
        (t1 :: t2 :: rest)).outcome = .success tid) :
    ∃ th, (create_post db uploads bname form uid sf (t1 :: t2 :: rest)).db.threads
        = db.threads ++ [th] ∧
      th.created_at = t1 ∧ th.bumped_at = t2 ∧ th.created_at ≤ th.bumped_at := by
  have hle : t1 ≤ t2 := (List.chain'_cons.1 hmono).1
  cases hfb : findBoard db bname with
  | none => simp [create_post, hfb] at hsucc
  | some board =>
    cases hhf : handle_file uploads form.file uid sf with
    | crash => simp [create_post, hfb, hhf] at hsucc
    | ok fn ofn fs ups1 =>
      by_cases hval : ((form.subject.getD "").isEmpty
          && (form.comment.getD "").isEmpty && fn.isNone) = true
      · simp [create_post, hfb, hhf, htid, hval] at hsucc
      · simp only [create_post, hfb, hhf, htid]
        rw [if_neg hval]
        exact ⟨_, rfl, rfl, rfl, hle⟩

/-- C5 witness: on the clock 5, 5, 9 the two readings coincide and the
created thread has equal `created_at` and `bumped_at`. -/
theorem C5_bumped_at_init_witness :
    ClockMono [5, 5, 9] ∧
    ∃ th, (create_post exDB [] "b" exFormNewThread "u" id [5, 5, 9]).db.threads
        = exDB.threads ++ [th] ∧
      th.created_at = 5 ∧ th.bumped_at = 5 ∧ th.created_at ≤ th.bumped_at := by
  have hmono : ClockMono [5, 5, 9] := by
    unfold ClockMono
    refine List.Chain'.cons (by omega) (List.Chain'.cons (by omega) ?_)
    exact List.chain'_singleton 9
  exact ⟨hmono,
    C5_bumped_at_init exDB [] "b" exFormNewThread "u" id 5 5 [9] 1 rfl hmono rfl⟩

/-- C6: when the uploaded file has no extension or an extension outside the
allow-list, `allowed_file` is false and the request behaves exactly as the
same request without a file: same outcome and state, nothing written to the
upload directory, and any post it creates has null `filename`,
`original_filename` and `file_size`. -/
theorem C6_disallowed_file_ignored (db : DB) (uploads : List StoredFile)
    (bname : String) (form : PostForm) (uid : String) (sf : String → String)
    (clock : List Nat) (f : UploadedFile)
    (hfile : form.file = some f)
    (hrej : allowed_file f.filename = false) :
    create_post db uploads bname form uid sf clock
      = create_post db uploads bname { form with file := none } uid sf clock ∧
    (create_post db uploads bname form uid sf clock).uploads = uploads ∧
    ∀ t, (create_post db uploads bname form uid sf clock).outcome = .success t →
      ∃ p, (create_post db uploads bname form uid sf clock).db.posts
          = db.posts ++ [p] ∧
        p.filename = none ∧ p.original_filename = none ∧ p.file_size = none := by
  have h1 : handle_file uploads form.file uid sf = .ok none none none uploads := by
    apply handle_file_not_accepted
    simp only [FileAccepted, hfile, hrej]
    simp
  refine ⟨?_, create_post_uploads_stable db uploads bname form uid sf clock
      none none none h1, ?_⟩
  · unfold create_post
    rw [h1]
    rfl
  · intro t hsucc
    obtain ⟨p, hp, _, _, _, _, _, fn, ofn, fs, ups1, hok, hpfn, hpofn, hpfs, _, _⟩ :=
      create_post_success_shape db uploads bname form uid sf clock t hsucc
    have hinj := h1.symm.trans hok
    simp only [FileOutcome.ok.injEq] at hinj
    obtain ⟨hfn, hofn, hfs, _⟩ := hinj
    exact ⟨p, hp, by rw [hpfn, ← hfn], by rw [hpofn, ← hofn], by rw [hpfs, ← hfs]⟩

/-- C6 witness: a new-thread request carrying `virus.exe` proceeds exactly as
without the file, stores nothing, and its created post has null attachment
columns. -/
theorem C6_disallowed_file_ignored_witness :
    create_post exDB [] "b" exFormExe "u" id [0, 0, 0]
      = create_post exDB [] "b" { exFormExe with file := none } "u" id [0, 0, 0] ∧
    (create_post exDB [] "b" exFormExe "u" id [0, 0, 0]).uploads = [] ∧
    ∀ t, (create_post exDB [] "b" exFormExe "u" id [0, 0, 0]).outcome = .success t →
      ∃ p, (create_post exDB [] "b" exFormExe "u" id [0, 0, 0]).db.posts
          = exDB.posts ++ [p] ∧
        p.filename = none ∧ p.original_filename = none ∧ p.file_size = none :=
  C6_disallowed_file_ignored exDB [] "b" exFormExe "u" id [0, 0, 0]
    ⟨"virus.exe", 9⟩ rfl (by decide)

/-- C7 counterexample: a form whose name field is present but empty produces
a post stored with the empty name, not with the name Anonymous. -/
theorem C7_counterexample :
    exFormNewThread.name = some "" ∧
    (create_post exDB [] "b" exFormNewThread "u" id [0, 0, 0]).db.posts.map
      Post.name = [""] ∧
    ("" : String) ≠ "Anonymous" := by decide

/-- C7 (amended): the stored name is the submitted name field when that field
is present, even when it is the empty string; the default Anonymous applies
only when the field is absent from the form. -/
theorem C7_name_default (db : DB) (uploads : List StoredFile)
    (bname : String) (form : PostForm) (uid : String) (sf : String → String)
    (clock : List Nat) (t : Nat)
    (hsucc : (create_post db uploads bname form uid sf clock).outcome
      = .success t) :
    ∃ p, (create_post db uploads bname form uid sf clock).db.posts
        = db.posts ++ [p] ∧
      p.name = (match form.name with | none => "Anonymous" | some s => s) := by
  obtain ⟨p, hp, _, hname, _⟩ :=
    create_post_success_shape db uploads bname form uid sf clock t hsucc
  refine ⟨p, hp, ?_⟩
  cases hn : form.name with
  | none => rw [hn] at hname; simpa using hname
  | some s => rw [hn] at hname; simpa using hname

/-- C7 witness: the concrete request whose name field is the empty string
stores that empty string. -/
theorem C7_name_default_witness :
    ∃ p, (create_post exDB [] "b" exFormNewThread "u" id [0, 0, 0]).db.posts
        = exDB.posts ++ [p] ∧
      p.name = (match exFormNewThread.name with | none => "Anonymous" | some s => s) :=
  C7_name_default exDB [] "b" exFormNewThread "u" id [0, 0, 0] 1 rfl

/-- C8 counterexample: a board-creation request with empty (but present) name
and title is accepted and adds a board row, so emptiness is not rejected. -/
theorem C8_counterexample :
    (create_board exDB (some "") (some "") none).1 = BoardOutcome.created "" ∧
    (create_board exDB (some "") (some "") none).2.boards.length
      = exDB.boards.length + 1 := by decide

/-- C8 (amended): `create_board` fails only when the name or title field is
absent from the form (a key error, nothing written) or when a board with the
submitted name exists (Conflict, nothing written); any present name and
title, the empty string included, otherwise create a board row verbatim. -/
theorem C8_create_board_requires_presence (db : DB) (name : Option String)
    (title : Option String) (descr : Option String) :
    ((name = none ∨ title = none) →
      create_board db name title descr = (.badRequest, db)) ∧
    (∀ n t bd, name = some n → title = some t → findBoard db n = some bd →
      create_board db name title descr = (.conflict, db)) ∧
    (∀ n t, name = some n → title = some t → findBoard db n = none →
      create_board db name title descr =
        (.created n,
          { db with
              boards := db.boards ++ [⟨db.next_board_id, n, t, descr.getD ""⟩]
              next_board_id := db.next_board_id + 1 })) := by
  refine ⟨?_, ?_, ?_⟩
  · rintro (hn | ht)
    · subst hn; rfl
    · subst ht; cases name <;> rfl
  · intro n t bd hn ht hf
    subst hn; subst ht
    simp only [create_board, hf]
  · intro n t hn ht hf
    subst hn; subst ht
    simp only [create_board, hf]

/-- C8 witness: a present non-duplicate name and title create the board. -/
theorem C8_create_board_requires_presence_witness :
    create_board exDB (some "x") (some "Test") none
      = (.created "x",
         { exDB with
             boards := exDB.boards ++ [⟨exDB.next_board_id, "x", "Test", ""⟩],
             next_board_id := exDB.next_board_id + 1 }) :=
  (C8_create_board_requires_presence exDB (some "x") (some "Test") none).2.2
    "x" "Test" rfl rfl rfl

/-- C9: the accepted attachment of a reply is saved into the upload directory
before the lock check runs, so a reply rejected with Locked still leaves the
stored file in the directory while the database is returned unchanged and no
post row exists for it. -/
theorem C9_file_persisted_on_locked_reply (db : DB) (uploads : List StoredFile)
    (bname : String) (form : PostForm) (uid : String) (sf : String → String)
    (clock : List Nat) (b : Board) (tid : Nat) (t : Thread) (f : UploadedFile)
    (ext : List Char)
    (hb : findBoard db bname = some b)
    (hfile : form.file = some f)
    (hfn : f.filename.isEmpty = false)
    (hallow : allowed_file f.filename = true)
    (hext : afterLastDot (sf f.filename).data = some ext)
    (htid : form.thread_id = some tid)
    (ht : findThread db tid = some t)
    (hlock : t.is_locked = true) :
    create_post db uploads bname form uid sf clock =
      ⟨.locked tid, db,
        uploads ++ [⟨uid ++ "." ++ String.mk (ext.map lowerChar), f.size⟩]⟩ := by
  have hok : handle_file uploads form.file uid sf
      = .ok (some (uid ++ "." ++ String.mk (ext.map lowerChar)))
          (some (sf f.filename)) (some f.size)
          (uploads ++ [⟨uid ++ "." ++ String.mk (ext.map lowerChar), f.size⟩]) := by
    simp only [handle_file, hfile, hfn, hallow]
    simp only [generate_filename, hext]
    rfl
  unfold create_post
  rw [hb, hok, htid]
  dsimp only
  rw [ht]
  dsimp only
  rw [hlock]
  simp

/-- C9 witness: a reply with `cat.PNG` to the locked thread is rejected, the
database is unchanged, and the stored file remains in the upload directory. -/
theorem C9_file_persisted_on_locked_reply_witness :
    create_post exDBLocked [] "b" exFormPng "u" id [4, 4]
      = ⟨.locked 1, exDBLocked,
          [⟨"u" ++ "." ++ String.mk (['P', 'N', 'G'].map lowerChar), 7⟩]⟩ :=
  C9_file_persisted_on_locked_reply exDBLocked [] "b" exFormPng "u" id [4, 4]
    exBoard 1 exLockedThread ⟨"cat.PNG", 7⟩ ['P', 'N', 'G']
    rfl rfl rfl (by decide) rfl rfl rfl rfl

/-- C10: the reply branch resolves the target thread by `thread_id` alone and
ignores the board named in the URL: a reply sent to the endpoint of another
board, whose thread belongs to a different board, is accepted, its post gets
the next post number of that thread, and the bump time of that thread is set
to the clock reading of the request (so it advances whenever the clock has).
The hypothesis that the thread lies on another board is deliberately unused:
no branch of the handler ever consults it. -/
theorem C10_cross_board_reply_accepted (db : DB) (uploads : List StoredFile)
    (bnameA : String) (form : PostForm) (uid : String) (sf : String → String)
    (clock : List Nat) (A : Board) (tid : Nat) (t : Thread)
    (fn ofn : Option String) (fs : Option Nat) (ups1 : List StoredFile)
    (hbA : findBoard db bnameA = some A)
    (hok : handle_file uploads form.file uid sf = .ok fn ofn fs ups1)
    (htid : form.thread_id = some tid)
    (ht : findThread db tid = some t)
    (hother : t.board_id ≠ A.id)
    (hlock : t.is_locked = false) :
    (create_post db uploads bnameA form uid sf clock).outcome = .success tid ∧
    (∃ p, (create_post db uploads bnameA form uid sf clock).db.posts
        = db.posts ++ [p] ∧
      p.thread_id = tid ∧ p.post_number = get_next_post_number db tid) ∧
    findThread (create_post db uploads bnameA form uid sf clock).db tid
      = some { t with bumped_at := (utcnow clock).1 } ∧
    (t.bumped_at ≤ (utcnow clock).1 →
      ∀ t2, findThread (create_post db uploads bnameA form uid sf clock).db tid
          = some t2 →
        t.bumped_at ≤ t2.bumped_at) := by
  have hmap := find?_map_bumpThread db.threads tid (utcnow clock).1 t ht
  constructor
  · simp only [create_post, hbA, hok, htid, ht]
    rw [if_neg (by simp [hlock])]
  constructor
  · simp only [create_post, hbA, hok, htid, ht]
    rw [if_neg (by simp [hlock])]
    exact ⟨_, rfl, rfl, rfl⟩
  constructor
  · simp only [create_post, hbA, hok, htid, ht]
    rw [if_neg (by simp [hlock])]
    unfold findThread
    dsimp only
    exact hmap
  · intro hadv t2 h2
    simp only [create_post, hbA, hok, htid, ht] at h2
    rw [if_neg (by simp [hlock])] at h2
    unfold findThread at h2
    dsimp only at h2
    rw [hmap] at h2
    injection h2 with h2
    subst h2
    exact hadv

/-- C10 witness: the only thread lives on board `b`, yet the reply posted to
the `a` endpoint is accepted, numbered 2, and bumps that thread. -/
theorem C10_cross_board_reply_accepted_witness :
    (create_post exDBTwoBoards [] "a" exFormReply "u" id [8, 9]).outcome
      = .success 1 ∧
    (∃ p, (create_post exDBTwoBoards [] "a" exFormReply "u" id [8, 9]).db.posts
        = exDBTwoBoards.posts ++ [p] ∧
      p.thread_id = 1 ∧ p.post_number = get_next_post_number exDBTwoBoards 1) ∧
    findThread (create_post exDBTwoBoards [] "a" exFormReply "u" id [8, 9]).db 1
      = some { exOpenThread with bumped_at := (utcnow [8, 9]).1 } ∧
    (exOpenThread.bumped_at ≤ (utcnow [8, 9]).1 →
      ∀ t2, findThread
          (create_post exDBTwoBoards [] "a" exFormReply "u" id [8, 9]).db 1
          = some t2 →
        exOpenThread.bumped_at ≤ t2.bumped_at) :=
  C10_cross_board_reply_accepted exDBTwoBoards [] "a" exFormReply "u" id [8, 9]
    exBoardA 1 exOpenThread none none none [] rfl rfl rfl rfl (by decide) rfl

end Imageboard
